import Mathlib

/-!
Shallow embedding of the dialog core of the economic-news chatbot
(`src/dialog_manager.py`, plus the cache-level query functions of
`src/news_parser.py`).  Python strings are modelled as Lean `String`;
Python `int` as `Int`; Python dictionaries with optional keys as
structures with `Option` fields; a Python call that may raise is
modelled in `Except String`.  The non-deterministic collaborators
(news store and LLM analyzer) are modelled as oracles: records of
functions returning `Except String` results, so that a theorem can
quantify over every collaborator behaviour.
-/

/-- Model of Python `str.lower` for one character, covering the ASCII
and Russian Cyrillic alphabets (the only alphabets appearing in this
repository's message handling). -/
def pyLowerChar (c : Char) : Char :=
  if 'A' ≤ c ∧ c ≤ 'Z' then Char.ofNat (c.toNat + 32)
  else if c = 'Ё' then 'ё'
  else if 'А' ≤ c ∧ c ≤ 'Я' then Char.ofNat (c.toNat + 32)
  else c

/-- Model of Python `str.lower`. -/
def pyLower (s : String) : String :=
  String.mk (s.toList.map pyLowerChar)

/-- Python whitespace (the characters `str.strip`/`str.split` treat as
space in this repository's inputs). -/
def isPySpace (c : Char) : Bool :=
  c = ' ' || c = '\t' || c = '\n' || c = '\r' || c = '\x0b' || c = '\x0c'

/-- Model of Python `str.strip()`. -/
def pyStrip (s : String) : String :=
  String.mk (((s.toList.dropWhile isPySpace).reverse.dropWhile isPySpace).reverse)

/-- Boolean substring test on lists of characters: `needle` occurs
contiguously inside the list. -/
def listInfixOf (needle : List Char) : List Char → Bool
  | [] => needle.isEmpty
  | c :: t => needle.isPrefixOf (c :: t) || listInfixOf needle t

/-- Model of Python `needle in hay` on strings. -/
def pyContains (hay needle : String) : Bool :=
  listInfixOf needle.toList hay.toList

/-- Worker for `pySplitWs`: accumulates the current word (reversed). -/
def pySplitWsGo : List Char → List Char → List String
  | [], acc => if acc.isEmpty then [] else [String.mk acc.reverse]
  | c :: rest, acc =>
    if isPySpace c then
      if acc.isEmpty then pySplitWsGo rest []
      else String.mk acc.reverse :: pySplitWsGo rest []
    else pySplitWsGo rest (c :: acc)

/-- Model of Python `str.split()` with no argument: split on runs of
whitespace, discarding empty words. -/
def pySplitWs (s : String) : List String :=
  pySplitWsGo s.toList []

/-- Model of Python `str.isdigit()` on the ASCII digits used here:
nonempty and all characters are digits. -/
def pyIsDigit (s : String) : Bool :=
  !s.isEmpty && s.toList.all Char.isDigit

/-- Numeric value of a list of decimal digits. -/
def digitsVal (l : List Char) : Nat :=
  l.foldl (fun a c => a * 10 + (c.toNat - 48)) 0

/-- Model of Python `int(w)` on a whitespace-free token `w`: optional
sign followed by decimal digits; `none` models `ValueError`.
(Underscore separators and non-ASCII digits are not used by this
repository's inputs and are not modelled.) -/
def pyInt? (s : String) : Option Int :=
  match s.toList with
  | [] => none
  | '+' :: rest =>
    if !rest.isEmpty && rest.all Char.isDigit then some (digitsVal rest) else none
  | '-' :: rest =>
    if !rest.isEmpty && rest.all Char.isDigit then some (-(digitsVal rest : Int)) else none
  | l =>
    if l.all Char.isDigit then some (digitsVal l) else none

/-- Model of Python `s.split(sep, 1)` on lists of characters: `some
(before, after)` around the first occurrence of `sep`, or `none` when
`sep` does not occur. -/
def pySplitOnce (sep : List Char) : List Char → Option (List Char × List Char)
  | [] => if sep.isEmpty then some ([], []) else none
  | c :: t =>
    if sep.isPrefixOf (c :: t) then some ([], (c :: t).drop sep.length)
    else (pySplitOnce sep t).map (fun pr => (c :: pr.1, pr.2))

/-- Model of the Python slice `l[:n]` for an `int` bound `n`
(negative bounds count from the end). -/
def pyTakeSlice (l : List α) (n : Int) : List α :=
  if 0 ≤ n then l.take n.toNat else l.take (l.length - (-n).toNat)

/-- Model of the Python slice `l[start:]` for an `int` index `start`
(negative indices count from the end, clamped at the front). -/
def pySliceFrom (l : List α) (start : Int) : List α :=
  if 0 ≤ start then l.drop start.toNat else l.drop (l.length - (-start).toNat)

/-- The last `n` elements of a list (the whole list when it is shorter). -/
def lastN (n : Nat) (l : List α) : List α :=
  l.drop (l.length - n)

/-! ## Data model -/

/-- One entry of the dialog context (`add_to_context` builds a dict
with keys `role`, `content` and `timestamp`; the wall-clock timestamp
is not observable by any of the dialog logic and is omitted). -/
structure CtxEntry where
  role : String
  content : String
deriving DecidableEq, Repr

/-- A news item as stored in the parser cache; every key is read via
`dict.get` with a default, so each field is optional. -/
structure NewsItem where
  id : Option String := none
  title : Option String := none
  url : Option String := none
  date : Option String := none
  source : Option String := none
  content : Option String := none
deriving DecidableEq, Repr

/-- An analysis value returned by the LLM collaborator
(`NewsAnalyzer.analyze_news`); consumed via `dict.get` with defaults. -/
structure Analysis where
  topic : Option String := none
  sentiment : Option String := none
  key_points : Option (List String) := none
  impact : Option String := none
deriving DecidableEq, Repr

/-- A summary value returned by the LLM collaborator
(`NewsAnalyzer.summarize_news`); consumed via `dict.get` with defaults. -/
structure Summary where
  trends : Option (List String) := none
  overall_sentiment : Option String := none
  key_events : Option (List String) := none
  recommendations : Option (List String) := none
deriving DecidableEq, Repr

/-- The possible values of the `data` key of a response dict. -/
inductive RespData where
  | noneVal
  | items (l : List NewsItem)
  | analyses (l : List (NewsItem × Analysis))
  | summary (s : Summary)
deriving DecidableEq, Repr

/-- A response dict built by the dialog manager.  `data = none` /
`type = none` model a dict in which that key is absent (the update
branch of `process_message` builds `{"text": ...}` only);
`data = some .noneVal` models the key being present with value `None`. -/
structure Response where
  text : String
  data : Option RespData := none
  type : Option String := none
deriving DecidableEq, Repr

/-- Oracle for the news-store collaborator as `process_message` calls
it (`update_news`, `get_latest_news`, `search_news`); an `.error`
result models a raised exception. -/
structure Parser where
  update_news : Except String (List NewsItem)
  get_latest_news : Option Int → Except String (List NewsItem)
  search_news : String → Int → Except String (List NewsItem)

/-- Oracle for the LLM analyzer collaborator. -/
structure Analyzer where
  analyze_news : NewsItem → Except String Analysis
  summarize_news : List NewsItem → Except String Summary

/-- The mutable state of a `DialogManager` instance, together with its
analyzer collaborator. -/
structure DM where
  news_analyzer : Analyzer
  context_size : Int
  context : List CtxEntry

/-! ## DialogManager operations (`src/dialog_manager.py`) -/

/-- Embeds `DialogManager.add_to_context` (lines 33-49): append an entry,
then truncate with the slice `context[-context_size:]` whenever the
length exceeds `context_size`. -/
def add_to_context (dm : DM) (message : String) (role : String := "user") : DM :=
  if ((dm.context ++ [({ role := role, content := message } : CtxEntry)]).length : Int)
       > dm.context_size then
    { dm with context := pySliceFrom (dm.context ++ [({ role := role, content := message } : CtxEntry)])
                                     (-dm.context_size) }
  else
    { dm with context := dm.context ++ [({ role := role, content := message } : CtxEntry)] }

/-- Model of `any(word in message for word in kws)`. -/
def anyContains (m : String) (kws : List String) : Bool :=
  kws.any (fun w => pyContains m w)

/-- Embeds `DialogManager._determine_intent` (lines 144-191).  `ctx` is the
manager's context at call time (which already contains the current
user message, appended by `process_message`). -/
def determine_intent (ctx : List CtxEntry) (message : String) : String :=
  let m := pyStrip (pyLower message)
  if pyContains m "все новости" then "get_all_news"
  else if anyContains m ["помощь", "помоги", "что ты умеешь", "команды"] then "help"
  else if anyContains m ["привет", "здравствуй", "добрый день", "здравствуйте"] then "greeting"
  else if anyContains m ["найди", "поиск", "искать"] then "search_news"
  else if anyContains m ["анализ", "проанализируй", "анализировать"] then "analyze_news"
  else if anyContains m ["сводка", "резюме", "итоги", "сумма"] then "get_summary"
  else if (pyContains m "новости" || pyContains m "последние")
          && (pySplitWs m).any pyIsDigit then "get_n_news"
  else if anyContains m ["новости", "последние"] then "get_latest_news"
  else if decide (1 < ctx.length)
          && pyContains (pyLower (ctx.getD (ctx.length - 2) ⟨"", ""⟩).content) "новост"
       then "get_latest_news"
  else "get_latest_news"

/-- The trigger loop of `_extract_search_query` (lines 206-210):
`message.split(trigger, 1)` and return the stripped remainder for the
first trigger contained in the message. -/
def extractQueryGo (message : String) : List String → String
  | [] => message
  | trig :: rest =>
    if pyContains message trig then
      match pySplitOnce trig.toList message.toList with
      | some (_, remainder) => pyStrip (String.mk remainder)
      | none => extractQueryGo message rest
    else extractQueryGo message rest

/-- Embeds `DialogManager._extract_search_query` (lines 193-213). -/
def extract_search_query (message : String) : String :=
  extractQueryGo (pyLower message) ["найди", "поиск", "искать", "найти"]

/-- The sentiment localization dict of `_handle_analyze_news`
(lines 345-349): `{"positive": ..., "negative": ..., "neutral":
...}.get(sentiment, "Нейтральная")`, written as a key-by-key lookup. -/
def sentiment_ru (s : String) : String :=
  if s = "positive" then "Позитивная"
  else if s = "negative" then "Негативная"
  else if s = "neutral" then "Нейтральная"
  else "Нейтральная"

/-- The sentiment localization dict of `_handle_get_summary`
(lines 396-401): the same dict extended with the `mixed` key. -/
def overall_sentiment_ru (s : String) : String :=
  if s = "positive" then "Позитивная"
  else if s = "negative" then "Негативная"
  else if s = "neutral" then "Нейтральная"
  else if s = "mixed" then "Смешанная"
  else "Нейтральная"

/-- Python `enumerate(l, 1)` rendered through a per-item line builder. -/
def enumTextGo (f : Nat → α → String) : Nat → List α → String
  | _, [] => ""
  | i, x :: rest => f i x ++ enumTextGo f (i + 1) rest

/-- One numbered line of `_handle_latest_news` (lines 242-243). -/
def latestItemLine (i : Nat) (n : NewsItem) : String :=
  toString i ++ ". " ++ n.title.getD "Без заголовка" ++ "\n" ++
  "   Источник: " ++ n.source.getD "Неизвестно" ++ ", Дата: " ++ n.date.getD "Нет даты" ++ "\n\n"

/-- The non-empty-news text of `_handle_latest_news` (lines 240-245). -/
def latestNewsText (latest : List NewsItem) : String :=
  "Вот последние " ++ toString latest.length ++ " новостей:\n\n" ++
  enumTextGo latestItemLine 1 latest ++
  "Для анализа введите 'анализ новостей'"

/-- Embeds `DialogManager._handle_latest_news` (lines 215-258).  The whole
body is wrapped in `try/except`, so it is total: a collaborator
failure becomes the `error`-typed response.  (The `isinstance(limit,
str)` coercion branch is not modelled: every call site passes an
`int` or `None`.) -/
def handle_latest_news (p : Parser) (limit : Option Int := some 5) : Response :=
  match p.get_latest_news limit with
  | .error _ =>
    { text := "Произошла ошибка при получении новостей",
      data := some .noneVal, type := some "error" }
  | .ok latest =>
    if latest.isEmpty then
      { text := "Нет доступных новостей. Попробуйте обновить новости командой 'обновить новости'.",
        data := some .noneVal, type := some "latest_news" }
    else
      { text := latestNewsText latest, data := some (.items latest), type := some "latest_news" }

/-- One numbered line of `_handle_search_news` (lines 285-291). -/
def searchItemLine (i : Nat) (n : NewsItem) : String :=
  toString i ++ ". " ++ n.title.getD "Без заголовка" ++ "\n" ++
  "   Источник: " ++ n.source.getD "Неизвестный источник" ++ ", Дата: " ++ n.date.getD "Без даты" ++ "\n\n"

/-- Embeds `DialogManager._handle_search_news` (lines 260-299).  There is NO
`try/except` in this handler: a raising collaborator search
propagates (modelled by returning `.error`). -/
def handle_search_news (p : Parser) (query : String) (limit : Int := 5) :
    Except String Response :=
  match p.search_news query limit with
  | .error e => .error e
  | .ok results =>
    if results.isEmpty then
      .ok { text := "К сожалению, я не нашел новостей по запросу '" ++ query ++
                    "'. Попробуйте изменить запрос или получить последние новости командой 'последние новости'.",
            data := some .noneVal, type := some "search_news" }
    else
      .ok { text := "Результаты поиска по запросу '" ++ query ++ "':\n\n" ++
                    enumTextGo searchItemLine 1 results ++
                    "Для анализа этих новостей введите 'проанализировать новости'.",
            data := some (.items results), type := some "search_news" }

/-- The analysis loop of `_handle_analyze_news` (lines 323-329): the
first raising `analyze_news` call propagates. -/
def analyzeAll (a : Analyzer) : List NewsItem → Except String (List (NewsItem × Analysis))
  | [] => .ok []
  | n :: rest =>
    match a.analyze_news n with
    | .error e => .error e
    | .ok an =>
      match analyzeAll a rest with
      | .error e => .error e
      | .ok l => .ok ((n, an) :: l)

/-- One numbered block of `_handle_analyze_news` (lines 334-355). -/
def analyzeItemLine (i : Nat) (pr : NewsItem × Analysis) : String :=
  toString i ++ ". " ++ pr.1.title.getD "Без заголовка" ++ "\n" ++
  "   Тема: " ++ pr.2.topic.getD "Не определено" ++ "\n" ++
  "   Тональность: " ++ sentiment_ru (pr.2.sentiment.getD "neutral") ++ "\n" ++
  "   Ключевые моменты: " ++ String.intercalate ", " (pr.2.key_points.getD ["Не определено"]) ++ "\n" ++
  "   Потенциальное влияние: " ++ pr.2.impact.getD "Не определено" ++ "\n\n"

/-- Embeds `DialogManager._handle_analyze_news` (lines 301-363).  No
`try/except`: collaborator exceptions propagate. -/
def handle_analyze_news (a : Analyzer) (p : Parser) (limit : Int := 3) :
    Except String Response :=
  match p.get_latest_news (some limit) with
  | .error e => .error e
  | .ok latest =>
    if latest.isEmpty then
      .ok { text := "К сожалению, у меня нет новостей для анализа. Попробуйте обновить новости командой 'обновить новости'.",
            data := some .noneVal, type := some "analyze_news" }
    else
      match analyzeAll a latest with
      | .error e => .error e
      | .ok results =>
        .ok { text := "Результаты анализа последних новостей:\n\n" ++
                      enumTextGo analyzeItemLine 1 results ++
                      "Для получения общей сводки введите 'сводка по новостям'.",
              data := some (.analyses results), type := some "analyze_news" }

/-- Model of the `text += f"- ..."` bullet loops of `_handle_get_summary`. -/
def bulletLines (l : List String) : String :=
  l.foldl (fun acc x => acc ++ "- " ++ x ++ "\n") ""

/-- The rendered summary text of `_handle_get_summary` (lines 389-417). -/
def summaryText (summary : Summary) : String :=
  "Сводка по последним экономическим новостям:\n\n" ++
  "Основные тренды и темы:\n" ++ bulletLines (summary.trends.getD ["Не определено"]) ++
  "\nОбщая тональность: " ++ overall_sentiment_ru (summary.overall_sentiment.getD "neutral") ++ "\n\n" ++
  "Ключевые события и их влияние:\n" ++ bulletLines (summary.key_events.getD ["Не определено"]) ++
  "\nРекомендации:\n" ++ bulletLines (summary.recommendations.getD ["Нет рекомендаций"])

/-- Embeds `DialogManager._handle_get_summary` (lines 365-423).  No
`try/except`: collaborator exceptions propagate. -/
def handle_get_summary (a : Analyzer) (p : Parser) (limit : Int := 5) :
    Except String Response :=
  match p.get_latest_news (some limit) with
  | .error e => .error e
  | .ok latest =>
    if latest.isEmpty then
      .ok { text := "К сожалению, у меня нет новостей для создания сводки. Попробуйте обновить новости командой 'обновить новости'.",
            data := some .noneVal, type := some "get_summary" }
    else
      match a.summarize_news latest with
      | .error e => .error e
      | .ok summary =>
        .ok { text := summaryText summary,
              data := some (.summary summary), type := some "get_summary" }

/-- Embeds `DialogManager._handle_help` (lines 425-446); the literal keeps
the source's indentation inside the triple-quoted string. -/
def handle_help : Response :=
  { text := "Я - диалоговая система для анализа экономических новостей. Вот что я умею:\n\n        1. Показывать последние новости:\n           - 'новости' - 5 последних новостей\n           - 'все новости' - полный список\n        2. Искать новости по ключевым словам: 'найди [запрос]'\n        3. Анализировать новости: 'анализ новостей'\n        4. Создавать сводку: 'сводка'\n        5. Обновлять новости: 'обновить новости'",
    data := some .noneVal, type := some "help" }

/-- Embeds `DialogManager._handle_greeting` (lines 448-465). -/
def handle_greeting : Response :=
  { text := "Здравствуйте! Я - диалоговая система для анализа экономических новостей.\n\nЯ могу показывать последние новости, искать новости по ключевым словам, анализировать их и создавать сводки.\n\nЧем я могу вам помочь сегодня? Напишите 'помощь', чтобы узнать о моих возможностях.",
    data := some .noneVal, type := some "greeting" }

/-- Embeds `DialogManager._handle_unknown` (lines 467-487). -/
def handle_unknown : Response :=
  { text := "Извините, я не совсем понял ваш запрос. Вот что я умею:\n\n1. Показывать последние новости - просто напишите 'новости' или 'последние новости'\n2. Искать новости по ключевым словам - напишите 'найди [запрос]' или 'поиск [запрос]'\n3. Анализировать новости - напишите 'анализ новостей' или 'проанализируй новости'\n4. Создавать сводку по новостям - напишите 'сводка' или 'резюме новостей'\n\nПопробуйте сформулировать запрос иначе или напишите 'помощь' для получения справки.",
    data := some .noneVal, type := some "unknown" }

/-- The exact-membership update-command test of `process_message`
(line 82): `message.lower() in ["обновить новости", "обновить",
"update"]` — note: no `strip()`. -/
def isUpdateCmd (message : String) : Bool :=
  ["обновить новости", "обновить", "update"].contains (pyLower message)

/-- The update branch of `process_message` (lines 83-88): the
response dict carries ONLY a `text` key (no `data`, no `type`). -/
def updateResponse (p : Parser) : Response :=
  match p.update_news with
  | .ok _ => { text := "Новости успешно обновлены!" }
  | .error e => { text := "Произошла ошибка при обновлении новостей: " ++ e }

/-- The `get_latest_news`-intent branch of `process_message`.  Lines
94-112 compute a response that lines 113-124 unconditionally
overwrite (and lines 94-112 cannot raise, because
`_handle_latest_news` is total and `int(parts[1])` is guarded by
`parts[1].isdigit()`), so only the surviving block (lines 113-124) is
modelled: `int(message.split()[-1])` with `ValueError`/`IndexError`
falling back to the default limit 5. -/
def latestBranch (p : Parser) (message : String) : Response :=
  if pyContains (pyLower message) "все новости" then
    handle_latest_news p none
  else if pyContains (pyLower message) "новости" then
    match (pySplitWs message).getLast? with
    | none => handle_latest_news p (some 5)
    | some w =>
      match pyInt? w with
      | none => handle_latest_news p (some 5)
      | some n => handle_latest_news p (some n)
  else handle_latest_news p (some 5)

/-- The `elif` chain of `process_message` on the classified intent
(lines 94-137); any intent outside the six dispatched tags (notably
`get_all_news` and `get_n_news`) falls to `_handle_unknown`.
`.error` models an exception escaping `process_message`. -/
def dispatchIntent (intent : String) (dm : DM) (message : String) (p : Parser) :
    Except String Response :=
  if intent = "get_latest_news" then .ok (latestBranch p message)
  else if intent = "search_news" then
    handle_search_news p (extract_search_query message) 5
  else if intent = "analyze_news" then
    handle_analyze_news dm.news_analyzer p 3
  else if intent = "get_summary" then
    handle_get_summary dm.news_analyzer p 5
  else if intent = "help" then .ok handle_help
  else if intent = "greeting" then .ok handle_greeting
  else .ok handle_unknown

/-- The response dispatch of `process_message` after the update-command
interception: classify, then dispatch. -/
def respOf (dm : DM) (message : String) (p : Parser) : Except String Response :=
  if isUpdateCmd message then
    .ok (updateResponse p)
  else
    dispatchIntent (determine_intent dm.context message) dm message p

/-- Embeds `DialogManager.process_message` (lines 67-142): append the user
message, compute the response, append the response text as a system
entry, return the response (paired with the updated manager state). -/
def process_message (dm : DM) (message : String) (p : Parser) :
    Except String (Response × DM) :=
  match respOf (add_to_context dm message "user") message p with
  | .error e => .error e
  | .ok response =>
    .ok (response, add_to_context (add_to_context dm message "user") response.text "system")

/-- A finite sequence of `add_to_context` calls
(message, role pairs, oldest first). -/
def runAppends (dm : DM) (msgs : List (String × String)) : DM :=
  msgs.foldl (fun d pr => add_to_context d pr.1 pr.2) dm

/-! ## NewsParser cache-level queries (`src/news_parser.py`) -/

/-- Model of `sorted(cache, key=lambda x: x.get("date", ""), reverse=True)`:
stable descending sort by the date string (lexicographic string
comparison, as in Python). -/
def sortByDateDesc (l : List NewsItem) : List NewsItem :=
  l.insertionSort (fun a b => (b.date.getD "") ≤ (a.date.getD ""))

/-- Embeds `NewsParser.get_latest_news` (lines 82-98) on a cache (the list
of `news_cache.values()`): `sorted_news[:limit] if limit else
sorted_news` — `None` AND `0` are falsy, so both return the whole
sorted list.  (The `isinstance` guard is not modelled: the argument
is typed `Option Int` here.) -/
def NewsParser.get_latest_news (cache : List NewsItem) (limit : Option Int) : List NewsItem :=
  let sorted_news := sortByDateDesc cache
  match limit with
  | none => sorted_news
  | some n => if n = 0 then sorted_news else pyTakeSlice sorted_news n

/-- The search loop of `NewsParser.search_news` (lines 114-122),
with the early `break` at `limit` results. -/
def searchGo (query : String) (limit : Int) : List NewsItem → List NewsItem → List NewsItem
  | [], acc => acc.reverse
  | n :: rest, acc =>
    if pyContains (pyLower (n.title.getD "")) query
       || pyContains (pyLower (n.content.getD "")) query then
      if ((n :: acc).length : Int) ≥ limit then (n :: acc).reverse
      else searchGo query limit rest (n :: acc)
    else searchGo query limit rest acc

/-- Embeds `NewsParser.search_news` (lines 100-124). -/
def NewsParser.search_news (cache : List NewsItem) (query : String) (limit : Int := 10) :
    List NewsItem :=
  searchGo (pyLower query) limit cache []

/-- The real `NewsParser`, viewed as a collaborator oracle over a
fixed cache; its query methods never raise.  (`update_news` performs
network scraping, outside the embedded core; it is modelled as
returning the cache.) -/
def parserOfCache (cache : List NewsItem) : Parser :=
  { update_news := .ok cache,
    get_latest_news := fun limit => .ok (NewsParser.get_latest_news cache limit),
    search_news := fun query limit => .ok (NewsParser.search_news cache query limit) }

/-! ## Concrete fixtures used by witnesses and counterexamples -/

/-- An analyzer oracle that always succeeds with an empty analysis. -/
def dummyAnalyzer : Analyzer :=
  { analyze_news := fun _ => .ok {}, summarize_news := fun _ => .ok {} }

/-- A fresh manager with the default `context_size=5`. -/
def dm0 : DM :=
  { news_analyzer := dummyAnalyzer, context_size := 5, context := [] }

/-- A news-store oracle whose calls all succeed with empty results. -/
def pOk : Parser :=
  { update_news := .ok [], get_latest_news := fun _ => .ok [],
    search_news := fun _ _ => .ok [] }

/-- A news-store oracle whose `search_news` raises. -/
def pSearchBoom : Parser :=
  { update_news := .ok [], get_latest_news := fun _ => .ok [],
    search_news := fun _ _ => .error "boom" }

/-- A one-item news cache. -/
def item1 : NewsItem :=
  { title := some "ЦБ повысил ставку", date := some "2024-01-01" }

/-- The cache holding exactly `item1`. -/
def cache1 : List NewsItem := [item1]

/-! ## Helper lemmas: context management -/

/-- Lemma: `add_to_context` never changes `context_size` or the analyzer. -/
theorem add_to_context_size (dm : DM) (m role : String) :
    (add_to_context dm m role).context_size = dm.context_size := by
  unfold add_to_context
  split <;> rfl

/-- For a positive bound, one `add_to_context` call keeps exactly the
last `context_size` entries of the appended list. -/
theorem add_to_context_eq_lastN (a : Analyzer) (cs : Int) (h : 1 ≤ cs)
    (ctx : List CtxEntry) (m role : String) :
    add_to_context ⟨a, cs, ctx⟩ m role
      = ⟨a, cs, lastN cs.toNat (ctx ++ [⟨role, m⟩])⟩ := by
  unfold add_to_context pySliceFrom lastN
  dsimp only
  by_cases hlen : ((ctx ++ [(⟨role, m⟩ : CtxEntry)]).length : Int) > cs
  · rw [if_pos hlen, if_neg (show ¬ ((0 : Int) ≤ -cs) by omega), Int.neg_neg]
  · rw [if_neg hlen]
    have h0 : (ctx ++ [(⟨role, m⟩ : CtxEntry)]).length - cs.toNat = 0 := by omega
    rw [h0, List.drop_zero]

/-- Re-truncating an already truncated list after one more append is
the same as truncating the untruncated appended list. -/
theorem lastN_append_single (k : Nat) (hk : 1 ≤ k) (l : List α) (e : α) :
    lastN k (lastN k l ++ [e]) = lastN k (l ++ [e]) := by
  unfold lastN
  by_cases hlk : l.length ≤ k
  · rw [Nat.sub_eq_zero_of_le hlk, List.drop_zero]
  · push_neg at hlk
    have h1 : (List.drop (l.length - k) l).length = k := by
      rw [List.length_drop]; omega
    rw [List.length_append, List.length_append, h1]
    simp only [List.length_cons, List.length_nil]
    rw [List.drop_append_of_le_length (by rw [h1]; omega),
        List.drop_append_of_le_length (by omega),
        List.drop_drop]
    congr 2
    omega

/-- The context after a sequence of appends starting from a truncated
context is the truncation of the full entry sequence. -/
theorem runAppends_context (a : Analyzer) (cs : Int) (hcs : 1 ≤ cs) :
    ∀ (msgs : List (String × String)) (ctx : List CtxEntry),
      (runAppends ⟨a, cs, lastN cs.toNat ctx⟩ msgs).context
        = lastN cs.toNat (ctx ++ msgs.map (fun pr => (⟨pr.2, pr.1⟩ : CtxEntry))) := by
  intro msgs
  induction msgs with
  | nil => intro ctx; simp [runAppends]
  | cons pr rest ih =>
    intro ctx
    have step : add_to_context ⟨a, cs, lastN cs.toNat ctx⟩ pr.1 pr.2
        = ⟨a, cs, lastN cs.toNat (ctx ++ [⟨pr.2, pr.1⟩])⟩ := by
      rw [add_to_context_eq_lastN a cs hcs, lastN_append_single cs.toNat (by omega)]
    have hfold : runAppends (⟨a, cs, lastN cs.toNat ctx⟩ : DM) (pr :: rest)
        = runAppends (add_to_context ⟨a, cs, lastN cs.toNat ctx⟩ pr.1 pr.2) rest := rfl
    rw [hfold, step, ih (ctx ++ [({ role := pr.2, content := pr.1 } : CtxEntry)])]
    simp

/-- A positive-bound `add_to_context` result always ends with the new
entry. -/
theorem add_to_context_snoc (dm : DM) (m role : String) (h : 1 ≤ dm.context_size) :
    ∃ t, (add_to_context dm m role).context = t ++ [⟨role, m⟩] := by
  obtain ⟨a, cs, ctx⟩ := dm
  have hcs : 1 ≤ cs := h
  rw [add_to_context_eq_lastN a cs hcs ctx m role]
  refine ⟨List.drop ((ctx ++ [(⟨role, m⟩ : CtxEntry)]).length - cs.toNat) ctx, ?_⟩
  show lastN cs.toNat (ctx ++ [(⟨role, m⟩ : CtxEntry)]) = _
  unfold lastN
  exact List.drop_append_of_le_length (by simp; omega)

/-- With a bound of at least two, `add_to_context` keeps the previous
last entry in front of the new one. -/
theorem add_to_context_snoc2 (dm : DM) (m role : String) (e : CtxEntry)
    (t0 : List CtxEntry) (h : 2 ≤ dm.context_size) (hctx : dm.context = t0 ++ [e]) :
    ∃ t, (add_to_context dm m role).context = t ++ [e, ⟨role, m⟩] := by
  obtain ⟨a, cs, ctx⟩ := dm
  have hcs : 2 ≤ cs := h
  have hctx2 : ctx = t0 ++ [e] := hctx
  subst hctx2
  rw [add_to_context_eq_lastN a cs (by omega) _ m role]
  have hassoc : (t0 ++ [e]) ++ [(⟨role, m⟩ : CtxEntry)] = t0 ++ [e, ⟨role, m⟩] := by simp
  refine ⟨List.drop (((t0 ++ [e]) ++ [(⟨role, m⟩ : CtxEntry)]).length - cs.toNat) t0, ?_⟩
  show lastN cs.toNat ((t0 ++ [e]) ++ [(⟨role, m⟩ : CtxEntry)]) = _
  unfold lastN
  rw [hassoc]
  exact List.drop_append_of_le_length (by simp; omega)

/-! ## Helper lemmas: substrings, strip, split -/

/-- Lemma: `listInfixOf` decides the `IsInfix` relation. -/
theorem listInfixOf_iff (needle : List Char) :
    ∀ hay : List Char, listInfixOf needle hay = true ↔ needle <:+: hay := by
  intro hay
  induction hay with
  | nil =>
    simp [listInfixOf, List.isEmpty_iff]
  | cons c t ih =>
    simp [listInfixOf, List.infix_cons_iff, ih, List.isPrefixOf_iff_prefix]

/-- An infix whose first character fails `p` survives `dropWhile p`. -/
theorem infix_dropWhile_of_head (p : Char → Bool) (c0 : Char) (n : List Char)
    (hc : p c0 = false) :
    ∀ l : List Char, (c0 :: n) <:+: l → (c0 :: n) <:+: l.dropWhile p := by
  intro l
  induction l with
  | nil => simp
  | cons c t ih =>
    intro h
    by_cases hp : p c = true
    · rw [List.dropWhile_cons_of_pos hp]
      rcases List.infix_cons_iff.mp h with hpre | hinf
      · exfalso
        rcases hpre with ⟨rest, hrest⟩
        have hcc : c0 = c := by
          have := congrArg (fun l => l.head?) hrest
          simpa using this
        rw [hcc] at hc
        rw [hp] at hc
        exact Bool.noConfusion hc
      · exact ih hinf
    · rw [List.dropWhile_cons_of_neg hp]
      exact h

/-- An infix whose first and last characters fail `p` survives
stripping from both ends. -/
theorem infix_stripList (p : Char → Bool) (n : List Char) (c0 c1 : Char)
    (hhead : n.head? = some c0) (hc0 : p c0 = false)
    (hlastc : n.reverse.head? = some c1) (hc1 : p c1 = false)
    (l : List Char) (h : n <:+: l) :
    n <:+: ((l.dropWhile p).reverse.dropWhile p).reverse := by
  obtain ⟨n0, rfl⟩ : ∃ n0, n = c0 :: n0 := by
    cases n with
    | nil => exact absurd hhead (by simp)
    | cons a t =>
      simp only [List.head?_cons, Option.some.injEq] at hhead
      exact ⟨t, by rw [hhead]⟩
  have h1 : (c0 :: n0) <:+: l.dropWhile p := infix_dropWhile_of_head p c0 n0 hc0 l h
  obtain ⟨m0, hm0⟩ : ∃ m0, (c0 :: n0).reverse = c1 :: m0 := by
    cases hrev : (c0 :: n0).reverse with
    | nil => exact absurd (congrArg List.length hrev) (by simp)
    | cons a t =>
      rw [hrev] at hlastc
      simp at hlastc
      exact ⟨t, by rw [hlastc]⟩
  have h2 : (c0 :: n0).reverse <:+: (l.dropWhile p).reverse :=
    List.reverse_infix.mpr h1
  rw [hm0] at h2
  have h3 : (c1 :: m0) <:+: ((l.dropWhile p).reverse).dropWhile p :=
    infix_dropWhile_of_head p c1 m0 hc1 _ h2
  have h4 : (c1 :: m0).reverse <:+: (((l.dropWhile p).reverse).dropWhile p).reverse :=
    List.reverse_infix.mpr h3
  rw [← hm0] at h4
  rw [List.reverse_reverse] at h4
  exact h4

/-- Lemma: `pySplitOnce` succeeds exactly when the separator occurs. -/
theorem pySplitOnce_isSome (sep : List Char) :
    ∀ l : List Char, (pySplitOnce sep l).isSome = listInfixOf sep l := by
  intro l
  induction l with
  | nil =>
    unfold pySplitOnce listInfixOf
    split <;> simp_all
  | cons c t ih =>
    unfold pySplitOnce listInfixOf
    split
    · rename_i hpre
      simp [hpre]
    · rename_i hpre
      have hfalse : sep.isPrefixOf (c :: t) = false := by
        cases hb : sep.isPrefixOf (c :: t)
        · rfl
        · exact absurd hb hpre
      rw [hfalse, Bool.false_or, ← ih]
      cases hsp : pySplitOnce sep t <;> simp [hsp]

/-! ## Helper lemmas: handlers and dispatch -/

/-- Every response of the (total) latest-news handler carries a `data`
key and a `type` key equal to `latest_news` or `error`. -/
theorem handle_latest_news_fields (p : Parser) (limit : Option Int) :
    (handle_latest_news p limit).data.isSome = true ∧
    ((handle_latest_news p limit).type = some "latest_news" ∨
     (handle_latest_news p limit).type = some "error") := by
  unfold handle_latest_news
  split
  · exact ⟨rfl, Or.inr rfl⟩
  · split
    · exact ⟨rfl, Or.inl rfl⟩
    · exact ⟨rfl, Or.inl rfl⟩

/-- The latest-news branch inherits the latest-news handler fields. -/
theorem latestBranch_fields (p : Parser) (message : String) :
    (latestBranch p message).data.isSome = true ∧
    ((latestBranch p message).type = some "latest_news" ∨
     (latestBranch p message).type = some "error") := by
  unfold latestBranch
  split
  · exact handle_latest_news_fields p none
  · split
    · split
      · exact handle_latest_news_fields p (some 5)
      · split
        · exact handle_latest_news_fields p (some 5)
        · exact handle_latest_news_fields p _
    · exact handle_latest_news_fields p (some 5)

/-- A successful search handler tags its response `search_news` and
carries a `data` key. -/
theorem handle_search_news_ok (p : Parser) (query : String) (limit : Int)
    (r : Response) (h : handle_search_news p query limit = .ok r) :
    r.data.isSome = true ∧ r.type = some "search_news" := by
  unfold handle_search_news at h
  split at h
  · exact absurd h (by simp)
  · split at h
    · cases h
      exact ⟨rfl, rfl⟩
    · cases h
      exact ⟨rfl, rfl⟩

/-- A successful analyze handler tags its response `analyze_news` and
carries a `data` key. -/
theorem handle_analyze_news_ok (a : Analyzer) (p : Parser) (limit : Int)
    (r : Response) (h : handle_analyze_news a p limit = .ok r) :
    r.data.isSome = true ∧ r.type = some "analyze_news" := by
  unfold handle_analyze_news at h
  split at h
  · exact absurd h (by simp)
  · split at h
    · cases h
      exact ⟨rfl, rfl⟩
    · split at h
      · exact absurd h (by simp)
      · cases h
        exact ⟨rfl, rfl⟩

/-- A successful summary handler tags its response `get_summary` and
carries a `data` key. -/
theorem handle_get_summary_ok (a : Analyzer) (p : Parser) (limit : Int)
    (r : Response) (h : handle_get_summary a p limit = .ok r) :
    r.data.isSome = true ∧ r.type = some "get_summary" := by
  unfold handle_get_summary at h
  split at h
  · exact absurd h (by simp)
  · split at h
    · cases h
      exact ⟨rfl, rfl⟩
    · split at h
      · exact absurd h (by simp)
      · cases h
        exact ⟨rfl, rfl⟩

/-- Outside the update branch, every `.ok` response of the dispatcher
carries a `data` key and a `type` key drawn from the eight handler
tags. -/
theorem respOf_ok_fields (dm : DM) (msg : String) (p : Parser) (r : Response)
    (hupd : isUpdateCmd msg = false) (h : respOf dm msg p = .ok r) :
    r.data.isSome = true ∧ r.type.isSome = true ∧
    r.type.getD "" ∈ (["latest_news", "search_news", "analyze_news", "get_summary",
                       "help", "greeting", "unknown", "error"] : List String) := by
  unfold respOf at h
  rw [hupd] at h
  simp only [Bool.false_eq_true, if_false] at h
  unfold dispatchIntent at h
  split at h
  · cases h
    obtain ⟨h1, h2⟩ := latestBranch_fields p msg
    rcases h2 with h2 | h2 <;> rw [h2] <;> exact ⟨h1, rfl, by decide⟩
  · split at h
    · obtain ⟨h1, h2⟩ := handle_search_news_ok p (extract_search_query msg) 5 r h
      rw [h2]; exact ⟨h1, rfl, by decide⟩
    · split at h
      · obtain ⟨h1, h2⟩ := handle_analyze_news_ok dm.news_analyzer p 3 r h
        rw [h2]; exact ⟨h1, rfl, by decide⟩
      · split at h
        · obtain ⟨h1, h2⟩ := handle_get_summary_ok dm.news_analyzer p 5 r h
          rw [h2]; exact ⟨h1, rfl, by decide⟩
        · split at h
          · cases h; exact ⟨rfl, rfl, by decide⟩
          · split at h
            · cases h; exact ⟨rfl, rfl, by decide⟩
            · cases h; exact ⟨rfl, rfl, by decide⟩

/-- Outside the three uncaught-collaborator intents (and outside the
update interception) the dispatcher cannot raise. -/
theorem respOf_ok_of_intent (dm : DM) (msg : String) (p : Parser)
    (h : isUpdateCmd msg = true ∨
         determine_intent dm.context msg ∉
           (["search_news", "analyze_news", "get_summary"] : List String)) :
    ∃ r, respOf dm msg p = .ok r := by
  unfold respOf
  by_cases hupd : isUpdateCmd msg = true
  · rw [hupd]
    exact ⟨updateResponse p, by simp⟩
  · have hupd' : isUpdateCmd msg = false := by
      cases hb : isUpdateCmd msg
      · rfl
      · exact absurd hb hupd
    rw [hupd']
    simp only [Bool.false_eq_true, if_false]
    have hni : determine_intent dm.context msg ∉
        (["search_news", "analyze_news", "get_summary"] : List String) := by
      rcases h with h | h
      · exact absurd h hupd
      · exact h
    have hn1 : determine_intent dm.context msg ≠ "search_news" := by
      intro he; exact hni (by rw [he]; decide)
    have hn2 : determine_intent dm.context msg ≠ "analyze_news" := by
      intro he; exact hni (by rw [he]; decide)
    have hn3 : determine_intent dm.context msg ≠ "get_summary" := by
      intro he; exact hni (by rw [he]; decide)
    unfold dispatchIntent
    split
    · exact ⟨_, rfl⟩
    · split
      · exact ⟨_, rfl⟩
      · split
        · exact ⟨_, rfl⟩
        · exact ⟨_, rfl⟩

/-- Any non-update message whose processing returns normally yields a
response with `data` and `type` keys, `type` among the handler tags. -/
theorem process_ok_fields (dm : DM) (msg : String) (p : Parser) (r : Response) (dm' : DM)
    (hupd : isUpdateCmd msg = false)
    (h : process_message dm msg p = .ok (r, dm')) :
    r.data.isSome = true ∧ r.type.isSome = true ∧
    r.type.getD "" ∈ (["latest_news", "search_news", "analyze_news", "get_summary",
                       "help", "greeting", "unknown", "error"] : List String) := by
  unfold process_message at h
  split at h
  · exact absurd h (by simp)
  · rename_i resp hr
    cases h
    exact respOf_ok_fields (add_to_context dm msg "user") msg p _ hupd hr

/-! ## Claim theorems -/

/-- Claim C1, counterexample: with a search collaborator that raises,
`process_message` on the message `"найди x"` does NOT return an
`error`-typed Response — the exception propagates out (the search,
analyze and summary handlers have no `try/except`). -/
theorem C1_counterexample :
    process_message dm0 "найди x" pSearchBoom = .error "boom" := rfl

/-- Claim C1, amended: graceful degradation holds only outside the
three uncaught-collaborator intents.  For every collaborator
behaviour, if the message is an update command or its classified
intent is not `search_news`/`analyze_news`/`get_summary`, then
`process_message` returns normally; in the remaining three intents a
raising collaborator exception propagates out (see the
counterexample). -/
theorem C1_amended (dm : DM) (msg : String) (p : Parser)
    (h : isUpdateCmd msg = true ∨
         determine_intent (add_to_context dm msg "user").context msg ∉
           (["search_news", "analyze_news", "get_summary"] : List String)) :
    ∃ pr, process_message dm msg p = .ok pr := by
  unfold process_message
  obtain ⟨r, hr⟩ := respOf_ok_of_intent (add_to_context dm msg "user") msg p h
  rw [hr]
  exact ⟨_, rfl⟩

/-- Claim C1, witness: the amended theorem applied at the concrete
greeting message. -/
theorem C1_witness : ∃ pr, process_message dm0 "привет" pOk = .ok pr :=
  C1_amended dm0 "привет" pOk (Or.inr (by decide))

/-- Claim C2, counterexample: the message `"все новости"` classifies
as `get_all_news`, which no branch of `process_message` handles, so
the response IS the `unknown`-typed one — the unknown handler is
reachable, contradicting the claim. -/
theorem C2_counterexample :
    ∃ pr, process_message dm0 "все новости" pOk = .ok pr ∧ pr.1.type = some "unknown" :=
  ⟨_, rfl, rfl⟩

/-- Claim C2, amended: the classifier fallback (rule 10) does resolve
to `get_latest_news`, but the `unknown` handler is still reachable:
whenever the classifier returns `get_all_news` or `get_n_news` (and
the message is not an update command), `process_message` returns the
`unknown` response. -/
theorem C2_amended (dm : DM) (msg : String) (p : Parser)
    (hupd : isUpdateCmd msg = false)
    (h : determine_intent (add_to_context dm msg "user").context msg = "get_all_news" ∨
         determine_intent (add_to_context dm msg "user").context msg = "get_n_news") :
    ∃ dm', process_message dm msg p = .ok (handle_unknown, dm') := by
  unfold process_message respOf
  rw [hupd]
  simp only [Bool.false_eq_true, if_false]
  rcases h with h | h <;> rw [h] <;> exact ⟨_, rfl⟩

/-- Claim C2, witness: the amended theorem applied at the concrete
input `"все новости"`. -/
theorem C2_witness :
    ∃ dm', process_message dm0 "все новости" pOk = .ok (handle_unknown, dm') :=
  C2_amended dm0 "все новости" pOk (by decide) (Or.inl (by decide))

/-- Claim C4, counterexample: with `context_size = 0` a single append
leaves one entry in the context, violating `length ≤ contextSize`
(the slice `context[-0:]` is the whole list). -/
theorem C4_counterexample :
    ¬ (((add_to_context { dm0 with context_size := 0 } "привет" "user").context.length : Int)
        ≤ ({ dm0 with context_size := 0 } : DM).context_size) := by
  decide

/-- Claim C4, amended: for every POSITIVE `contextSize` and every
finite sequence of appends from the empty context, the retained
context is exactly the last `contextSize` (or fewer) appended entries
in original order, and its length never exceeds `contextSize`
(quantifying over all sequences covers the state after each call).
For `contextSize = 0` the bound fails (see the counterexample). -/
theorem C4_amended (a : Analyzer) (cs : Int) (hcs : 1 ≤ cs)
    (msgs : List (String × String)) :
    (runAppends ⟨a, cs, []⟩ msgs).context
      = lastN cs.toNat (msgs.map (fun pr => ({ role := pr.2, content := pr.1 } : CtxEntry))) ∧
    (((runAppends ⟨a, cs, []⟩ msgs).context.length : Int) ≤ cs) := by
  have h := runAppends_context a cs hcs msgs []
  rw [show lastN cs.toNat ([] : List CtxEntry) = [] by simp [lastN]] at h
  rw [List.nil_append] at h
  refine ⟨h, ?_⟩
  rw [h]
  unfold lastN
  rw [List.length_drop]
  omega

/-- Claim C4, witness: the amended theorem at `contextSize = 2` and a
concrete three-append run. -/
theorem C4_witness :
    (runAppends ⟨dummyAnalyzer, 2, []⟩ [("а", "user"), ("б", "system"), ("в", "user")]).context
      = lastN (2 : Int).toNat
          ([("а", "user"), ("б", "system"), ("в", "user")].map
            (fun pr => ({ role := pr.2, content := pr.1 } : CtxEntry))) ∧
    (((runAppends ⟨dummyAnalyzer, 2, []⟩
        [("а", "user"), ("б", "system"), ("в", "user")]).context.length : Int) ≤ 2) :=
  C4_amended dummyAnalyzer 2 (by decide) [("а", "user"), ("б", "system"), ("в", "user")]

/-- Claim C5, counterexample: the update-command path returns a
Response with only a `text` key — no `type`, no `data` — so not every
`process_message` Response is a three-field record. -/
theorem C5_counterexample :
    ∃ pr, process_message dm0 "update" pOk = .ok pr
      ∧ pr.1.type = none ∧ pr.1.data = none :=
  ⟨_, rfl, rfl, rfl⟩

/-- Claim C5, amended: outside the update-command path, every
normally returned Response carries the `text`, `data` and `type`
fields, with `type` among the eight handler tags; update-path
responses carry only `text`. -/
theorem C5_amended (dm : DM) (msg : String) (p : Parser) (r : Response) (dm' : DM)
    (hupd : isUpdateCmd msg = false)
    (h : process_message dm msg p = .ok (r, dm')) :
    r.data.isSome = true ∧ r.type.isSome = true ∧
    r.type.getD "" ∈ (["latest_news", "search_news", "analyze_news", "get_summary",
                       "help", "greeting", "unknown", "error"] : List String) :=
  process_ok_fields dm msg p r dm' hupd h

/-- Claim C5, witness: the amended theorem at the concrete greeting
message. -/
theorem C5_witness :
    handle_greeting.data.isSome = true ∧ handle_greeting.type.isSome = true ∧
    handle_greeting.type.getD "" ∈
      (["latest_news", "search_news", "analyze_news", "get_summary",
        "help", "greeting", "unknown", "error"] : List String) :=
  C5_amended dm0 "привет" pOk handle_greeting
    (add_to_context (add_to_context dm0 "привет" "user") handle_greeting.text "system")
    (by decide) rfl

/-- Claim C6, counterexample: the update interception does NOT trim:
for the message `"update "` (trailing space) the trimmed lower-cased
message is exactly `"update"`, yet `process_message` does not take
the refresh path — it falls through to the classifier and returns a
`latest_news`-typed response. -/
theorem C6_counterexample :
    pyStrip (pyLower "update ") = "update" ∧
    ∃ pr, process_message dm0 "update " pOk = .ok pr ∧ pr.1.type = some "latest_news" :=
  ⟨rfl, _, rfl, rfl⟩

/-- Claim C6, amended: the refresh path is taken iff the lower-cased
(but NOT trimmed) full message is exactly one of the three update
phrases; `"Обновить Новости"` triggers it and `"пожалуйста обновить
новости"` does not, but a message with surrounding whitespace also
does not (see the counterexample). -/
theorem C6_amended (dm : DM) (msg : String) (p : Parser) :
    (isUpdateCmd msg = true ↔
       pyLower msg ∈ (["обновить новости", "обновить", "update"] : List String)) ∧
    (isUpdateCmd msg = true →
       ∃ dm', process_message dm msg p = .ok (updateResponse p, dm')) ∧
    (isUpdateCmd msg = false →
       ∀ r dm', process_message dm msg p = .ok (r, dm') → r.type.isSome = true) ∧
    isUpdateCmd "Обновить Новости" = true ∧
    isUpdateCmd "пожалуйста обновить новости" = false := by
  refine ⟨List.elem_iff, ?_, ?_, by decide, by decide⟩
  · intro hu
    unfold process_message respOf
    rw [if_pos hu]
    exact ⟨_, rfl⟩
  · intro hupd r dm' h
    exact (process_ok_fields dm msg p r dm' hupd h).2.1

/-- Claim C6, witness: the amended theorem's refresh direction at the
mixed-case concrete input. -/
theorem C6_witness :
    ∃ dm', process_message dm0 "Обновить Новости" pOk = .ok (updateResponse pOk, dm') :=
  (C6_amended dm0 "Обновить Новости" pOk).2.1 (by decide)

/-- Claim C9: whenever `process_message` returns normally and the
configured context size is at least 2, the updated context ends with
the user entry for the input message followed by the system entry for
the returned response text. -/
theorem C9_theorem (dm : DM) (msg : String) (p : Parser) (r : Response) (dm' : DM)
    (hcs : 2 ≤ dm.context_size)
    (h : process_message dm msg p = .ok (r, dm')) :
    ∃ t, dm'.context = t ++ [⟨"user", msg⟩, ⟨"system", r.text⟩] := by
  unfold process_message at h
  split at h
  · exact absurd h (by simp)
  · rename_i resp hr
    cases h
    obtain ⟨t1, ht1⟩ := add_to_context_snoc dm msg "user" (by omega)
    exact add_to_context_snoc2 (add_to_context dm msg "user") _ "system"
      ⟨"user", msg⟩ t1 (by rw [add_to_context_size]; omega) ht1

/-- Claim C9, witness: the theorem at the concrete greeting exchange. -/
theorem C9_witness :
    ∃ t, (add_to_context (add_to_context dm0 "привет" "user")
            handle_greeting.text "system").context
      = t ++ [⟨"user", "привет"⟩, ⟨"system", handle_greeting.text⟩] :=
  C9_theorem dm0 "привет" pOk handle_greeting
    (add_to_context (add_to_context dm0 "привет" "user") handle_greeting.text "system")
    (by decide) rfl

/-- Claim C10: sentiment localization is total — every sentiment
string outside the translated keys renders as `"Нейтральная"`, in
both the analyze-handler map and the summary-handler map (which adds
`mixed`). -/
theorem C10_theorem :
    (∀ s : String, s ∉ (["positive", "negative", "neutral"] : List String) →
       sentiment_ru s = "Нейтральная") ∧
    (∀ s : String, s ∉ (["positive", "negative", "neutral", "mixed"] : List String) →
       overall_sentiment_ru s = "Нейтральная") := by
  constructor
  · intro s hs
    have h1 : s ≠ "positive" := fun he => hs (by rw [he]; decide)
    have h2 : s ≠ "negative" := fun he => hs (by rw [he]; decide)
    have h3 : s ≠ "neutral" := fun he => hs (by rw [he]; decide)
    unfold sentiment_ru
    rw [if_neg h1, if_neg h2, if_neg h3]
  · intro s hs
    have h1 : s ≠ "positive" := fun he => hs (by rw [he]; decide)
    have h2 : s ≠ "negative" := fun he => hs (by rw [he]; decide)
    have h3 : s ≠ "neutral" := fun he => hs (by rw [he]; decide)
    have h4 : s ≠ "mixed" := fun he => hs (by rw [he]; decide)
    unfold overall_sentiment_ru
    rw [if_neg h1, if_neg h2, if_neg h3, if_neg h4]

/-- Claim C10, witness: both maps at the out-of-range sentiment
string `"bullish"`. -/
theorem C10_witness :
    sentiment_ru "bullish" = "Нейтральная" ∧
    overall_sentiment_ru "bullish" = "Нейтральная" :=
  ⟨C10_theorem.1 "bullish" (by decide), C10_theorem.2 "bullish" (by decide)⟩

/-- Claim C3, counterexample: on a one-item cache,
`get_latest_news(limit=0)` returns the whole cache, NOT an empty
sequence (`0` is falsy in `sorted_news[:limit] if limit else
sorted_news`), and the handler invoked with `limit=0` returns the
full listing rather than the "no news" guidance. -/
theorem C3_counterexample :
    NewsParser.get_latest_news cache1 (some 0) = [item1] ∧
    (handle_latest_news (parserOfCache cache1) (some 0)).data = some (.items [item1]) ∧
    (handle_latest_news (parserOfCache cache1) (some 0)).text
      ≠ "Нет доступных новостей. Попробуйте обновить новости командой 'обновить новости'." := by
  refine ⟨rfl, rfl, ?_⟩
  decide

/-- Claim C3, amended: `limit=null` returns all items (a permutation
of the cache), and `limit=0` behaves exactly like `null` — all items,
not an empty sequence; consequently the handler at `limit=0` returns
the "no news" guidance only when the cache itself is empty. -/
theorem C3_amended (cache : List NewsItem) :
    List.Perm (NewsParser.get_latest_news cache none) cache ∧
    NewsParser.get_latest_news cache (some 0) = NewsParser.get_latest_news cache none ∧
    (cache = [] →
      handle_latest_news (parserOfCache cache) (some 0) =
        { text := "Нет доступных новостей. Попробуйте обновить новости командой 'обновить новости'.",
          data := some .noneVal, type := some "latest_news" }) := by
  refine ⟨?_, rfl, ?_⟩
  · exact List.perm_insertionSort _ cache
  · intro h
    subst h
    rfl

/-- Claim C3, witness: the amended theorem at the one-item cache and
at the empty cache. -/
theorem C3_witness :
    List.Perm (NewsParser.get_latest_news cache1 none) cache1 ∧
    handle_latest_news (parserOfCache []) (some 0) =
      { text := "Нет доступных новостей. Попробуйте обновить новости командой 'обновить новости'.",
        data := some .noneVal, type := some "latest_news" } :=
  ⟨(C3_amended cache1).1, (C3_amended []).2.2 rfl⟩

/-- The phrase `"все новости"` (non-space first and last characters)
survives the classifier's `strip()`. -/
theorem pyContains_pyStrip_vse (s : String)
    (h : pyContains s "все новости" = true) :
    pyContains (pyStrip s) "все новости" = true := by
  unfold pyContains at h ⊢
  rw [listInfixOf_iff] at h ⊢
  show ("все новости").toList <:+:
    ((s.toList.dropWhile isPySpace).reverse.dropWhile isPySpace).reverse
  exact infix_stripList isPySpace ("все новости").toList 'в' 'и'
    (by decide) (by decide) (by decide) (by decide) s.toList h

/-- Claim C7: rule 1 has top priority — any message whose lower-cased
text contains the phrase `"все новости"` classifies as
`get_all_news`, regardless of the context and of lower-priority
keywords; in particular `"все новости и последние"` does, although it
also contains the rule-8 keyword `"последние"`. -/
theorem C7_theorem :
    (∀ (msg : String) (ctx : List CtxEntry),
       pyContains (pyLower msg) "все новости" = true →
       determine_intent ctx msg = "get_all_news") ∧
    determine_intent [] "все новости и последние" = "get_all_news" := by
  constructor
  · intro msg ctx h
    have h2 : pyContains (pyStrip (pyLower msg)) "все новости" = true :=
      pyContains_pyStrip_vse (pyLower msg) h
    simp [determine_intent, h2]
  · rfl

/-- Claim C7, witness: the theorem applied at a concrete mixed-case
message containing the phrase. -/
theorem C7_witness :
    pyContains (pyLower "Все новости, пожалуйста") "все новости" = true ∧
    determine_intent [] "Все новости, пожалуйста" = "get_all_news" :=
  ⟨by decide, C7_theorem.1 "Все новости, пожалуйста" [] (by decide)⟩

/-- The spec's description of the query extractor for one trigger:
the trimmed remainder after the first occurrence of the trigger in
the lower-cased message. -/
def queryAfter (trig m : String) : String :=
  match pySplitOnce trig.toList m.toList with
  | some pr => pyStrip (String.mk pr.2)
  | none => m

/-- One step of the trigger loop equals the one-trigger description. -/
theorem extractQueryGo_single (m trig : String) (rest : List String) :
    extractQueryGo m (trig :: rest) =
      if pyContains m trig = true then queryAfter trig m else extractQueryGo m rest := by
  simp only [extractQueryGo, queryAfter]
  by_cases h : pyContains m trig = true
  · rw [if_pos h, if_pos h]
    have hs : (pySplitOnce trig.toList m.toList).isSome = true := by
      rw [pySplitOnce_isSome]
      exact h
    cases hsp : pySplitOnce trig.toList m.toList with
    | none =>
      rw [hsp] at hs
      exact absurd hs (by simp)
    | some pr => simp only [hsp]
  · rw [if_neg h, if_neg h]

/-- Claim C8: the query extractor scans the triggers `найди`, `поиск`,
`искать`, `найти` in that order; for the first one contained in the
lower-cased message it returns the trimmed remainder after the
trigger's first occurrence, and with no trigger present it returns
the whole lower-cased message; on `"найди инфляция"` it returns
`"инфляция"`. -/
theorem C8_theorem :
    (∀ msg : String,
      extract_search_query msg =
        (if pyContains (pyLower msg) "найди" = true then queryAfter "найди" (pyLower msg)
         else if pyContains (pyLower msg) "поиск" = true then queryAfter "поиск" (pyLower msg)
         else if pyContains (pyLower msg) "искать" = true then queryAfter "искать" (pyLower msg)
         else if pyContains (pyLower msg) "найти" = true then queryAfter "найти" (pyLower msg)
         else pyLower msg)) ∧
    extract_search_query "найди инфляция" = "инфляция" := by
  constructor
  · intro msg
    show extractQueryGo (pyLower msg) ["найди", "поиск", "искать", "найти"] = _
    rw [extractQueryGo_single, extractQueryGo_single, extractQueryGo_single,
        extractQueryGo_single]
    rfl
  · rfl
